import Mathlib

set_option maxRecDepth 4000

/-!
Verification development for the ASCLog2CSV UDS framing layer
(`UDSFrame.py`).  The Python source is shallowly embedded: the `SID` and
`SType` enumerations become inductive types, the enum-scan lookup
`SID.get_sid` becomes a fold over the member list in definition order,
and the private classifier `__identify_service` becomes `identify_service`
over `Int` (Python integers are unbounded).  The `UDSCANFncIDs` dataclass
becomes a structure together with its generated constructor (count field
is an init parameter defaulting to 0) and its `append` method.
The segmentation / reassembly transport machinery is not implemented in
the source (the `UDSFrame` class is a stub), so it is modelled from the
spec where a claim needs it; those definitions say so in their doc
comments.
-/

/-- Embedding of the Python `SID(Enum)` class: the UDS service
identifiers known to the program, plus the fallback member `Other`. -/
inductive SID where
  | DiagSCntr
  | ECUReset
  | SecAccess
  | ComCntr
  | TsPresent
  | AccTimParam
  | SecDatTrans
  | CntrDTCSet
  | ResOnEve
  | LinkCntr
  | RDatByID
  | RMemByAddr
  | RScDatByID
  | RDatByPID
  | DynDefDID
  | WDatByID
  | WMemByAddr
  | ClrDiagInfo
  | RDTCInfo
  | IOCntrByID
  | RoutineCntr
  | ReqDnL
  | ReqUpL
  | TransDat
  | ReqTransExit
  | ReqFileTrans
  | Other
  deriving DecidableEq

/-- Numeric value of each `SID` enum member, as written in the source. -/
def SID.value : SID → Nat
  | .DiagSCntr => 0x10
  | .ECUReset => 0x11
  | .SecAccess => 0x27
  | .ComCntr => 0x28
  | .TsPresent => 0x3E
  | .AccTimParam => 0x83
  | .SecDatTrans => 0x84
  | .CntrDTCSet => 0x85
  | .ResOnEve => 0x86
  | .LinkCntr => 0x87
  | .RDatByID => 0x22
  | .RMemByAddr => 0x23
  | .RScDatByID => 0x24
  | .RDatByPID => 0x2A
  | .DynDefDID => 0x2C
  | .WDatByID => 0x2E
  | .WMemByAddr => 0x3D
  | .ClrDiagInfo => 0x14
  | .RDTCInfo => 0x19
  | .IOCntrByID => 0x2F
  | .RoutineCntr => 0x31
  | .ReqDnL => 0x34
  | .ReqUpL => 0x35
  | .TransDat => 0x36
  | .ReqTransExit => 0x37
  | .ReqFileTrans => 0x38
  | .Other => 0xFF

/-- The enum members in Python definition order, which is the order the
`for _sid in cls` loop of `get_sid` iterates in. -/
def SID.members : List SID :=
  [.DiagSCntr, .ECUReset, .SecAccess, .ComCntr, .TsPresent, .AccTimParam,
   .SecDatTrans, .CntrDTCSet, .ResOnEve, .LinkCntr, .RDatByID, .RMemByAddr,
   .RScDatByID, .RDatByPID, .DynDefDID, .WDatByID, .WMemByAddr,
   .ClrDiagInfo, .RDTCInfo, .IOCntrByID, .RoutineCntr, .ReqDnL, .ReqUpL,
   .TransDat, .ReqTransExit, .ReqFileTrans, .Other]

/-- Loop body of `SID.get_sid`: `if _sid.value == sid: ret = _sid`. -/
def sidStep (sid : Int) (ret s : SID) : SID :=
  if (s.value : Int) = sid then s else ret

/-- Embedding of `SID.get_sid`: start with `ret = SID.Other`, scan every
member in definition order, overwrite `ret` on a value match, return the
final `ret` (last match wins). -/
def SID.get_sid (sid : Int) : SID :=
  SID.members.foldl (sidStep sid) SID.Other

/-- Embedding of the Python `SType(Enum)` class: the classification
result of `identify_service`. -/
inductive SType where
  | UDSService
  | UDSPosRes
  | UDSNegRes
  | OBDService
  | Other
  deriving DecidableEq

/-- Embedding of the private function `__identify_service` with its exact
branch structure: chained Python comparisons such as `0x3F < sid < 0x7F`
become conjunctions. -/
def identify_service (sid : Int) : SID × SType :=
  if sid < 0x10 then (SID.Other, SType.OBDService)
  else if sid < 0x3F then (SID.get_sid sid, SType.UDSService)
  else if 0x3F < sid ∧ sid < 0x7F then (SID.get_sid (sid - 0x40), SType.UDSPosRes)
  else if sid = 0x7F then (SID.Other, SType.UDSNegRes)
  else if 0x82 < sid ∧ sid < 0x89 then (SID.get_sid sid, SType.UDSService)
  else if 0xC2 < sid ∧ sid < 0xC9 then (SID.get_sid (sid - 0x40), SType.UDSPosRes)
  else (SID.Other, SType.Other)

/-- Embedding of the `UDSCANFncIDs` dataclass: the functional CAN-ID
list and its count field.  `FncIDNum` is an ordinary field because in the
source it is an ordinary dataclass field (an init parameter). -/
structure UDSCANFncIDs where
  FncIDs : List String
  FncIDNum : Int
  deriving DecidableEq

/-- The dataclass-generated constructor applied with only the list
argument: `UDSCANFncIDs(fncids)` leaves `FncIDNum` at its declared
default `0`. -/
def UDSCANFncIDs.mk_default (fncids : List String) : UDSCANFncIDs :=
  { FncIDs := fncids, FncIDNum := 0 }

/-- Embedding of `UDSCANFncIDs.append`: push the new id onto `FncIDs`,
then set `FncIDNum` to the new length of `FncIDs`. -/
def UDSCANFncIDs.append (g : UDSCANFncIDs) (fncid : String) : UDSCANFncIDs :=
  { FncIDs := g.FncIDs ++ [fncid],
    FncIDNum := ((g.FncIDs ++ [fncid]).length : Int) }

/-- If no element of the scanned list matches, the `get_sid` loop leaves
its accumulator untouched. -/
lemma foldl_sidStep_no_match (sid : Int) (l : List SID) (init : SID)
    (h : ∀ s ∈ l, (s.value : Int) ≠ sid) :
    l.foldl (sidStep sid) init = init := by
  induction l generalizing init with
  | nil => rfl
  | cons a t ih =>
      rw [List.foldl_cons]
      have ha : ¬ ((a.value : Int) = sid) := h a (List.mem_cons_self a t)
      simp only [sidStep, if_neg ha]
      exact ih init fun s hs => h s (List.mem_cons_of_mem a hs)

/-- The `get_sid` loop accumulator is always either still the fallback
`Other` or a member whose value equals the searched value. -/
lemma foldl_sidStep_inv (sid : Int) (l : List SID) (init : SID)
    (h : init = SID.Other ∨ (init.value : Int) = sid) :
    l.foldl (sidStep sid) init = SID.Other ∨
      ((l.foldl (sidStep sid) init).value : Int) = sid := by
  induction l generalizing init with
  | nil => simpa using h
  | cons a t ih =>
      rw [List.foldl_cons]
      by_cases ha : (a.value : Int) = sid
      · exact ih _ (Or.inr (by simp only [sidStep, if_pos ha]; exact ha))
      · simp only [sidStep, if_neg ha]
        exact ih _ h

/-- `get_sid` returns `Other` or an exact match. -/
lemma get_sid_matches_or_other (sid : Int) :
    SID.get_sid sid = SID.Other ∨ ((SID.get_sid sid).value : Int) = sid :=
  foldl_sidStep_inv sid SID.members SID.Other (Or.inl rfl)

/-- A member whose value equals the searched value is what `get_sid`
returns (member values are pairwise distinct, so the last-match-wins
loop returns exactly that member). -/
lemma get_sid_mem_eq (sid : Int) (s : SID) (_hs : s ∈ SID.members)
    (hv : (s.value : Int) = sid) : SID.get_sid sid = s := by
  subst hv
  cases s <;> decide

/-- If no member value equals the searched value, `get_sid` returns the
fallback `Other`. -/
lemma get_sid_no_match (sid : Int)
    (h : ∀ s ∈ SID.members, (s.value : Int) ≠ sid) :
    SID.get_sid sid = SID.Other :=
  foldl_sidStep_no_match sid SID.members SID.Other h

/-- C1 counterexample: the claim says 0x40 classifies as category `Other`
with identifier `Other`; on the code it does not (the code's
positive-response guard is `0x3F < sid < 0x7F`, which admits 0x40). -/
theorem C1_counterexample :
    ¬ (identify_service 0x40 = (SID.Other, SType.Other)) := by decide

/-- C1 (amended): input 0x40 classifies as category `UDSPositiveResponse`
with identifier `Other`; the code's positive-response lower bound is the
strict inequality `0x3F < value`, so 0x40 is inside the range and its
identifier is the unmatched lookup of 0x40 − 0x40 = 0. -/
theorem C1_silver_0x40_is_posres :
    identify_service 0x40 = (SID.Other, SType.UDSPosRes) := by decide

/-- C2: the functional-address-group count invariant fails at
construction time: the dataclass constructor applied to a one-element
list leaves the count field at its default 0, while the code's own
docstring defines `FncIDNum` as the size of `FncIDs`. -/
theorem C2_construction_breaks_count_invariant :
    (UDSCANFncIDs.mk_default ["0x7DF"]).FncIDNum = 0 ∧
    (UDSCANFncIDs.mk_default ["0x7DF"]).FncIDs.length = 1 := by
  constructor <;> rfl

/-- C3: on both request ranges (0x10 ≤ v < 0x3F and 0x82 < v < 0x89) the
classifier returns category `UDSService` with the identifier resolved by
exact match against the service table (a member whose value is v when
one exists, else `Other`); 0x10 and 0x11 resolve to `DiagSCntr` and
`ECUReset`. -/
theorem C3_request_ranges_classify_as_service (v : Int)
    (h : (0x10 ≤ v ∧ v < 0x3F) ∨ (0x82 < v ∧ v < 0x89)) :
    identify_service v = (SID.get_sid v, SType.UDSService) ∧
    (∀ s ∈ SID.members, (s.value : Int) = v → SID.get_sid v = s) ∧
    (SID.get_sid v = SID.Other ∨ ((SID.get_sid v).value : Int) = v) ∧
    identify_service 0x10 = (SID.DiagSCntr, SType.UDSService) ∧
    identify_service 0x11 = (SID.ECUReset, SType.UDSService) := by
  refine ⟨?_, fun s hs hv => get_sid_mem_eq v s hs hv,
    get_sid_matches_or_other v, by decide, by decide⟩
  simp only [identify_service]
  split_ifs <;> first | rfl | (exfalso; omega)

theorem C3_request_ranges_witness :
    ((0x10 ≤ (0x11 : Int) ∧ (0x11 : Int) < 0x3F) ∨
      (0x82 < (0x11 : Int) ∧ (0x11 : Int) < 0x89)) ∧
    identify_service 0x11 = (SID.get_sid 0x11, SType.UDSService) :=
  ⟨Or.inl (by decide),
    (C3_request_ranges_classify_as_service 0x11 (Or.inl (by decide))).1⟩

/-- C4: on both ranges 0x40 < v < 0x7F and 0xC2 < v < 0xC9 the
classifier returns category `UDSPositiveResponse` with the identifier
obtained by looking up v − 0x40 in the service table. -/
theorem C4_posres_ranges (v : Int)
    (h : (0x40 < v ∧ v < 0x7F) ∨ (0xC2 < v ∧ v < 0xC9)) :
    identify_service v = (SID.get_sid (v - 0x40), SType.UDSPosRes) := by
  simp only [identify_service]
  split_ifs <;> first | rfl | (exfalso; omega)

theorem C4_posres_ranges_witness :
    ((0x40 < (0x50 : Int) ∧ (0x50 : Int) < 0x7F) ∨
      (0xC2 < (0x50 : Int) ∧ (0x50 : Int) < 0xC9)) ∧
    identify_service 0x50 = (SID.get_sid (0x50 - 0x40), SType.UDSPosRes) :=
  ⟨Or.inl (by decide), C4_posres_ranges 0x50 (Or.inl (by decide))⟩

/-- C5: each boundary value 0x3F, 0x82, 0x89, 0xC2, 0xC9 is excluded
from its neighbouring range and falls through to the default case
`(Other, Other)`. -/
theorem C5_boundary_values_fall_through :
    identify_service 0x3F = (SID.Other, SType.Other) ∧
    identify_service 0x82 = (SID.Other, SType.Other) ∧
    identify_service 0x89 = (SID.Other, SType.Other) ∧
    identify_service 0xC2 = (SID.Other, SType.Other) ∧
    identify_service 0xC9 = (SID.Other, SType.Other) := by decide

/-- C6: input exactly 0x7F classifies as category `UDSNegativeResponse`
with identifier `Other`. -/
theorem C6_negres_at_0x7F :
    identify_service 0x7F = (SID.Other, SType.UDSNegRes) := by decide

/-- C7: every value below 0x10 classifies as category `OBDService` with
identifier `Other`; the UDS table is not consulted. -/
theorem C7_obd_range (v : Int) (h : v < 0x10) :
    identify_service v = (SID.Other, SType.OBDService) := by
  simp only [identify_service]
  rw [if_pos h]

theorem C7_obd_range_witness :
    ((0x5 : Int) < 0x10) ∧
    identify_service 0x5 = (SID.Other, SType.OBDService) :=
  ⟨by decide, C7_obd_range 0x5 (by decide)⟩

/-- C8: `append` appends the identifier to the end of the list, sets the
count to the new list length, never fails, and permits duplicates: the
occurrence count of the appended identifier always grows by one. -/
theorem C8_append_spec (g : UDSCANFncIDs) (x : String) :
    (g.append x).FncIDs = g.FncIDs ++ [x] ∧
    (g.append x).FncIDNum = ((g.append x).FncIDs.length : Int) ∧
    (g.append x).FncIDs.count x = g.FncIDs.count x + 1 := by
  refine ⟨rfl, rfl, ?_⟩
  simp [UDSCANFncIDs.append, List.count_append]

/-- C10: `get_sid` is total — for any integer, when a member with that
value exists it is returned, when none exists the fallback `Other` is
returned; in particular `get_sid 0xFF` is `Other`. -/
theorem C10_get_sid_total (sid : Int) :
    (∀ s ∈ SID.members, (s.value : Int) = sid → SID.get_sid sid = s) ∧
    ((∀ s ∈ SID.members, (s.value : Int) ≠ sid) →
      SID.get_sid sid = SID.Other) ∧
    SID.get_sid 0xFF = SID.Other :=
  ⟨fun s hs hv => get_sid_mem_eq sid s hs hv,
    fun h => get_sid_no_match sid h, by decide⟩

theorem C10_get_sid_total_witness : SID.get_sid 0x10 = SID.DiagSCntr :=
  (C10_get_sid_total 0x10).1 SID.DiagSCntr (by decide) (by decide)

/-- Modelled from the spec: the source's `UDSFrame` transport class is a
stub, so the classified multi-frame protocol data units that the
Transmission Session emits and the Reassembly Engine consumes are taken
from the spec's Classified Frame data model.  Only the First Frame
(declared total length, initial data chunk) and Consecutive Frame
(sequence number, data chunk) variants are needed for the round-trip
claim. -/
inductive TxFrame where
  | FF (total : Nat) (data : List Nat)
  | CF (seq : Nat) (data : List Nat)
  deriving DecidableEq

/-- Modelled from the spec: a First Frame of a classic 8-byte bus frame
spends 2 bytes on the length header and carries 6 data bytes. -/
def ffCapacity : Nat := 6

/-- Modelled from the spec: a Consecutive Frame spends 1 byte on its
header and carries 7 data bytes. -/
def cfCapacity : Nat := 7

/-- Modelled from the spec: the Transmission Session's Consecutive Frame
stream for the remaining payload — each frame carries up to 7 bytes and
the sequence numbers cycle 1..15,0,1,... (successor mod 16). -/
def segmentCFs (l : List Nat) (seq : Nat) : List TxFrame :=
  match l with
  | [] => []
  | r :: rs =>
      TxFrame.CF seq ((r :: rs).take cfCapacity) ::
        segmentCFs ((r :: rs).drop cfCapacity) ((seq + 1) % 16)
termination_by l.length
decreasing_by simp [cfCapacity]; omega

/-- Modelled from the spec: segmenting a payload that exceeds one
frame's capacity — one First Frame with the declared total length and as
much payload as fits, then paced Consecutive Frames starting at sequence
number 1. -/
def segmentMsg (p : List Nat) : List TxFrame :=
  TxFrame.FF p.length (p.take ffCapacity) :: segmentCFs (p.drop ffCapacity) 1

/-- Modelled from the spec: the Reassembly Session state — declared
total length, accumulated payload buffer, next expected sequence
number. -/
structure ReSession where
  total : Nat
  buf : List Nat
  expSeq : Nat

/-- Modelled from the spec: the Reassembly Engine's `Collecting` loop.
A matching Consecutive Frame appends its payload and increments the
expected sequence number mod 16; when the accumulated length reaches the
declared total the Completed Message is emitted; a mismatched sequence
aborts (`none`); a new First Frame supersedes the session. -/
def reassembleFrom (s : ReSession) : List TxFrame → Option (List Nat)
  | [] => none
  | TxFrame.FF total d :: rest => reassembleFrom ⟨total, d, 1⟩ rest
  | TxFrame.CF seq d :: rest =>
      if seq = s.expSeq then
        if s.total ≤ (s.buf ++ d).length then some (s.buf ++ d)
        else reassembleFrom ⟨s.total, s.buf ++ d, (s.expSeq + 1) % 16⟩ rest
      else none

/-- Modelled from the spec: the Reassembly Engine fed a frame sequence
from idle — a leading First Frame opens a session with next expected
sequence number 1; anything else is not a completed multi-frame
message. -/
def reassemble : List TxFrame → Option (List Nat)
  | TxFrame.FF total d :: rest => reassembleFrom ⟨total, d, 1⟩ rest
  | _ => none

/-- Feeding the Consecutive Frame stream of a remaining payload into a
collecting session whose declared total is exactly what the buffer plus
that payload holds completes with the concatenation. -/
lemma reassembleFrom_segmentCFs (n : Nat) :
    ∀ (rest buf : List Nat) (seq : Nat), rest.length ≤ n → rest ≠ [] →
    reassembleFrom ⟨buf.length + rest.length, buf, seq⟩ (segmentCFs rest seq) =
      some (buf ++ rest) := by
  induction n with
  | zero =>
      intro rest buf seq hle hne
      cases rest with
      | nil => exact absurd rfl hne
      | cons r rs => simp at hle
  | succ n ih =>
      intro rest buf seq hle hne
      match rest with
      | [] => exact absurd rfl hne
      | r :: rs =>
        rw [segmentCFs]
        rw [reassembleFrom]
        rw [if_pos rfl]
        simp only [cfCapacity] at *
        by_cases hlen : (r :: rs).length ≤ 7
        · have htake : (r :: rs).take 7 = r :: rs :=
            List.take_of_length_le hlen
          rw [htake]
          rw [if_pos (by simp)]
        · push_neg at hlen
          have hdlen : ((r :: rs).drop 7).length =
              (r :: rs).length - 7 := List.length_drop 7 _
          have htlen : ((r :: rs).take 7).length = 7 := by
            rw [List.length_take]
            omega
          rw [if_neg (by rw [List.length_append, htlen]; omega)]
          have hforms : buf.length + (r :: rs).length =
              (buf ++ (r :: rs).take 7).length +
                ((r :: rs).drop 7).length := by
            rw [List.length_append, htlen, hdlen]
            omega
          have hrec := ih ((r :: rs).drop 7)
            (buf ++ (r :: rs).take 7) ((seq + 1) % 16)
            (by omega) (List.length_pos.mp (by omega))
          rw [hforms]
          rw [hrec]
          rw [List.append_assoc, List.take_append_drop]

/-- C9: segmentation of any payload longer than one frame's capacity
through the Transmission Session, fed into the Reassembly Engine,
reproduces the payload exactly. -/
theorem C9_segment_reassemble_roundtrip (p : List Nat)
    (h : cfCapacity < p.length) :
    reassemble (segmentMsg p) = some p := by
  rw [segmentMsg]
  rw [reassemble]
  simp only [ffCapacity, cfCapacity] at *
  have hdrop : (p.drop 6).length = p.length - 6 := List.length_drop 6 p
  have hne : p.drop 6 ≠ [] := List.length_pos.mp (by omega)
  have htake : (p.take 6).length = 6 := by
    rw [List.length_take]
    omega
  have htotal : p.length = (p.take 6).length + (p.drop 6).length := by
    rw [htake, hdrop]
    omega
  rw [htotal]
  rw [reassembleFrom_segmentCFs (p.drop 6).length
    (p.drop 6) (p.take 6) 1 le_rfl hne]
  rw [List.take_append_drop]

theorem C9_segment_reassemble_roundtrip_witness :
    cfCapacity < (List.range 20).length ∧
    reassemble (segmentMsg (List.range 20)) = some (List.range 20) :=
  ⟨by decide, C9_segment_reassemble_roundtrip (List.range 20) (by decide)⟩
